import Mathlib

/-!
Verification of the core of `python-inject` (`src/inject/injectors.py`):
the `Injector` binding/resolution algorithm, its coordination with the
`Scope` abstraction, and the process-wide registration state machine.

Modelling conventions for the shallow embedding:
* Python objects are identified by natural-number identities: a type key
  is a `K := Nat` and an instance is a `V := Nat`.  Object identity
  (Python `is`) is equality of these numbers.
* The distinguished class objects used as keys by the injector itself get
  fixed reserved identities `0`..`3` (`ApplicationScope`, `ThreadScope`,
  `RequestScope`, `Injector`); user classes are keys `≥ 4`.
* Python dictionaries become association lists with a find-first lookup;
  insertion removes any previous entry for the key, so each key occurs at
  most once, which matches dictionary semantics.
* Scope objects are mutable and aliased (the scope stack, the scope table
  and `_app_scope` hold references to the same objects), so scopes live in
  an explicit heap `List (Nat × Scope)` keyed by object identity, and the
  injector state holds scope identities, not scope values.
* The ambient Python world of class objects (whether a key is `callable`,
  and what calling it with zero arguments does) is a `TypeEnv` passed to
  `Injector.get` explicitly.
-/

set_option autoImplicit false

namespace Inject

/-- Type keys: identities of the Python class objects used as binding keys. -/
abbrev K := Nat

/-- Values: identities of Python instances. -/
abbrev V := Nat

/-- Identity of the `ApplicationScope` class object. -/
def ApplicationScope : K := 0

/-- Identity of the `ThreadScope` class object. -/
def ThreadScope : K := 1

/-- Identity of the `RequestScope` class object. -/
def RequestScope : K := 2

/-- Identity of the `Injector` class object (used by `bind(Injector, to=self)`). -/
def InjectorKey : K := 3

/-- Lookup of the first entry for a key in an association list
(Python dictionary access). -/
def findA {β : Type} (k : Nat) : List (Nat × β) → Option β
  | [] => none
  | (k', v) :: t => if k' = k then some v else findA k t

/-- Removal of every entry for a key from an association list
(Python `del d[k]`; with at most one entry per key this is exactly
deletion of that entry). -/
def eraseA {β : Type} (k : Nat) : List (Nat × β) → List (Nat × β)
  | [] => []
  | (k', v) :: t => if k' = k then eraseA k t else (k', v) :: eraseA k t

/-- Insertion into an association list: any previous entry for the key is
replaced (Python `d[k] = v`). -/
def setA {β : Type} (k : Nat) (v : β) (l : List (Nat × β)) : List (Nat × β) :=
  (k, v) :: eraseA k l

/-- First element of a list satisfying a predicate (the Python
`for x in xs: if p(x): ...` search pattern). -/
def firstWith (p : Nat → Bool) : List Nat → Option Nat
  | [] => none
  | x :: t => if p x then some x else firstWith p t

/-- Modelled from the spec: the `Scope` storage contract of
`inject/scopes.py`, which is not under `src/` (spec section 4.1).  A scope
owns two independent mappings, `bindings : type key → instance` and
`factories : type key → factory`.  A factory is a deterministic
zero-argument callable; it is modelled by the instance it produces, since
memoization in `Scope.get` makes at most one invocation observable per
scope and key. -/
structure Scope where
  bindings : List (K × V)
  factories : List (K × V)
deriving DecidableEq

/-- The empty scope (freshly constructed scope object). -/
def Scope.empty : Scope := ⟨[], []⟩

/-- Modelled from the spec: `Scope.bind` stores the instance under the key,
silently overwriting any entry already present in this scope. -/
def Scope.bind (s : Scope) (k : K) (v : V) : Scope :=
  { s with bindings := setA k v s.bindings }

/-- Modelled from the spec: `Scope.unbind` removes the binding if present,
and is a no-op otherwise. -/
def Scope.unbind (s : Scope) (k : K) : Scope :=
  { s with bindings := eraseA k s.bindings }

/-- Modelled from the spec: `Scope.is_bound` is true iff a concrete
instance is stored for the key in this scope. -/
def Scope.is_bound (s : Scope) (k : K) : Bool :=
  (findA k s.bindings).isSome

/-- Modelled from the spec: `Scope.bind_factory` mirrors `Scope.bind` for
lazily-constructed bindings. -/
def Scope.bind_factory (s : Scope) (k : K) (f : V) : Scope :=
  { s with factories := setA k f s.factories }

/-- Modelled from the spec: `Scope.unbind_factory` mirrors `Scope.unbind`. -/
def Scope.unbind_factory (s : Scope) (k : K) : Scope :=
  { s with factories := eraseA k s.factories }

/-- Modelled from the spec: `Scope.is_factory_bound` mirrors `Scope.is_bound`. -/
def Scope.is_factory_bound (s : Scope) (k : K) : Bool :=
  (findA k s.factories).isSome

/-- Modelled from the spec: `Scope.get` returns the stored instance if
bound; otherwise, if a factory is bound, invokes it, stores the result as
a concrete binding (memoizing it) and returns it.  The contract forbids
calling it when neither is bound; that case is mapped to `none` and is
unreachable under the injector's guard.  The second component is the
updated scope object. -/
def Scope.get (s : Scope) (k : K) : Option V × Scope :=
  match findA k s.bindings with
  | some v => (some v, s)
  | none =>
    match findA k s.factories with
    | some v => (some v, s.bind k v)
    | none => (none, s)

/-- State of one `Injector` instance (`injectors.py`, lines 114-140).
`heap` is the store of live scope objects keyed by identity; `selfVal` is
the identity of the injector object itself (the value stored by
`bind(Injector, to=self)`); `nextId` allocates fresh object identities.
`scopes`, `scopes_stack` and `app_scope` translate `_scopes`,
`_scopes_stack` and `_app_scope`.  `_app_scope` is `None` only transiently
inside `clear` before `_init` reassigns it, which no caller can observe,
so it is a plain identity here. -/
structure Injector where
  autobind : Bool
  selfVal : V
  heap : List (Nat × Scope)
  nextId : Nat
  scopes : List (K × Nat)
  scopes_stack : List Nat
  app_scope : Nat
deriving DecidableEq

namespace Injector

/-- Dereference a scope identity in the heap.  In reachable states every
identity in `scopes_stack`, `scopes` and `app_scope` is allocated, so the
default is never consulted. -/
def heapGet (i : Injector) (sid : Nat) : Scope :=
  (findA sid i.heap).getD Scope.empty

/-- Write back the state of a scope object (a Python mutation of the
aliased object, visible through every reference to it). -/
def setScope (i : Injector) (sid : Nat) (s : Scope) : Injector :=
  { i with heap := setA sid s i.heap }

/-- Allocation of a fresh scope object (`ApplicationScope()` etc.):
returns its identity and the grown heap. -/
def allocScope (i : Injector) (s : Scope) : Nat × Injector :=
  (i.nextId, { i with heap := (i.nextId, s) :: i.heap, nextId := i.nextId + 1 })

/-- `Injector.is_bound` (lines 183-189): true if the type is bound in any
scope of the stack, in stack order. -/
def is_bound (i : Injector) (t : K) : Bool :=
  i.scopes_stack.any (fun sid => (i.heapGet sid).is_bound t)

/-- `Injector.unbind` (lines 176-181): unbind the first occurrence of a
type in any scope; no-op if none. -/
def unbind (i : Injector) (t : K) : Injector :=
  match firstWith (fun sid => (i.heapGet sid).is_bound t) i.scopes_stack with
  | some sid => i.setScope sid ((i.heapGet sid).unbind t)
  | none => i

/-- `Injector.bind` (lines 169-174): if the type is already bound anywhere,
unbind it first, then store the instance in the application scope.  The
source parameter name `to` is a keyword here, hence `v`. -/
def bind (i : Injector) (t : K) (v : V) : Injector :=
  let i' := if i.is_bound t then i.unbind t else i
  i'.setScope i'.app_scope ((i'.heapGet i'.app_scope).bind t v)

/-- `Injector.is_factory_bound` (lines 238-246). -/
def is_factory_bound (i : Injector) (t : K) : Bool :=
  i.scopes_stack.any (fun sid => (i.heapGet sid).is_factory_bound t)

/-- `Injector.unbind_factory` (lines 231-236). -/
def unbind_factory (i : Injector) (t : K) : Injector :=
  match firstWith (fun sid => (i.heapGet sid).is_factory_bound t) i.scopes_stack with
  | some sid => i.setScope sid ((i.heapGet sid).unbind_factory t)
  | none => i

/-- `Injector.bind_factory` (lines 222-229). -/
def bind_factory (i : Injector) (t : K) (f : V) : Injector :=
  let i' := if i.is_factory_bound t then i.unbind_factory t else i
  i'.setScope i'.app_scope ((i'.heapGet i'.app_scope).bind_factory t f)

/-- `Injector.is_scope_bound` (lines 274-276). -/
def is_scope_bound (i : Injector) (st : K) : Bool :=
  (findA st i.scopes).isSome

/-- `Injector.unbind_scope` (lines 262-272): no-op if the scope type is not
in the table; otherwise unbind the scope's self-binding, remove it from
the table and remove the scope object from the stack (Python
`list.remove`, first occurrence). -/
def unbind_scope (i : Injector) (st : K) : Injector :=
  match findA st i.scopes with
  | none => i
  | some sid =>
    let i' := i.unbind st
    { i' with scopes := eraseA st i'.scopes,
              scopes_stack := i'.scopes_stack.erase sid }

/-- `Injector.bind_scope` (lines 252-260): unbind any existing scope of
that type, bind the scope object itself as an application-scope value,
insert it into the table and append it to the end of the stack. -/
def bind_scope (i : Injector) (st : K) (sid : Nat) : Injector :=
  let i1 := i.unbind_scope st
  let i2 := i1.bind st sid
  { i2 with scopes := setA st sid i2.scopes,
            scopes_stack := i2.scopes_stack ++ [sid] }

/-- The ambient environment of Python type objects: whether a key is
`callable`, and the outcome of calling it with zero arguments
(`Except.error e` is a raised exception of identity `e`, `Except.ok v`
a freshly constructed instance `v`). -/
structure TypeEnv where
  callable : K → Bool
  construct : K → Except V V

/-- Result of `Injector.get`: the returned value (`none` is Python `None`),
or one of the two raised conditions. -/
inductive GetRes where
  | ok (v : Option V)
  | notBound (t : K)
  | autobindingFailed (t : K) (e : V)
deriving DecidableEq

/-- `Injector.get` (lines 191-216): walk the scope stack in order and
delegate to the first scope holding a concrete or a factory binding for
the type; on a total miss, autobind when enabled and the type is callable
(wrapping a constructor exception in `autobindingFailed`, or binding the
new instance via `bind` and returning it); otherwise return `None` when
the `none` flag is set, else raise `NotBoundError`.  The second component
is the post-call injector state. -/
def get (i : Injector) (env : TypeEnv) (t : K) (noneFlag : Bool) : GetRes × Injector :=
  match firstWith
      (fun sid => (i.heapGet sid).is_bound t || (i.heapGet sid).is_factory_bound t)
      i.scopes_stack with
  | some sid =>
    let r := (i.heapGet sid).get t
    (GetRes.ok r.1, i.setScope sid r.2)
  | none =>
    if i.autobind && env.callable t then
      match env.construct t with
      | Except.error e => (GetRes.autobindingFailed t e, i)
      | Except.ok inst => (GetRes.ok (some inst), i.bind t inst)
    else if noneFlag then
      (GetRes.ok none, i)
    else
      (GetRes.notBound t, i)

/-- `Injector._default_config` (lines 142-154): bind the injector object
under the `Injector` key, then create and bind a `ThreadScope` and a
`RequestScope`. -/
def default_config (i : Injector) : Injector :=
  let i1 := i.bind InjectorKey i.selfVal
  let a2 := i1.allocScope Scope.empty
  let i2 := a2.2.bind_scope ThreadScope a2.1
  let a3 := i2.allocScope Scope.empty
  a3.2.bind_scope RequestScope a3.1

/-- `Injector._init` (lines 130-140): reset the table and the stack,
create the application scope, bind it, and load the default
configuration. -/
def init' (i : Injector) : Injector :=
  let i1 := { i with scopes := ([] : List (K × Nat)), scopes_stack := ([] : List Nat) }
  let a := i1.allocScope Scope.empty
  let i2 := { a.2 with app_scope := a.1 }
  let i3 := i2.bind_scope ApplicationScope a.1
  i3.default_config

/-- `Injector.clear` (lines 156-163): drop all bindings and scopes and
reinitialize.  The transient `None` assignments to the three instance
attributes are immediately overwritten by `_init` and are unobservable. -/
def clear (i : Injector) : Injector :=
  i.init'

/-- `Injector.__init__` (lines 114-128) applied to a fresh object of
identity `selfVal`: store the `autobind` flag and initialize.  The `echo`
flag only configures logging and has no effect on this state. -/
def new (autobind : Bool) (selfVal : V) : Injector :=
  Injector.init'
    { autobind := autobind, selfVal := selfVal, heap := [], nextId := 0,
      scopes := [], scopes_stack := [], app_scope := 0 }

/-- Direct mutation of the scope registered for a scope type: models the
documented pattern `scope = injector.get(ScopeType); scope.bind(t, v)`
(the module docstring's equivalent of binding in a chosen scope), used to
place a binding in a non-application scope. -/
def bindInScope (i : Injector) (st : K) (t : K) (v : V) : Injector :=
  match findA st i.scopes with
  | some sid => i.setScope sid ((i.heapGet sid).bind t v)
  | none => i

end Injector

/-- Result of `Injector.cls_register`. -/
inductive RegRes where
  | ok
  | alreadyRegistered (another : V)
deriving DecidableEq

/-- `Injector.cls_register` (lines 82-94) acting on the class-level slot
`Injector.injector` (the identity of the registered injector, if any):
raise `InjectorAlreadyRegistered(another)` leaving the slot unchanged when
occupied, otherwise store the caller. -/
def cls_register (slot : Option V) (inj : V) : RegRes × Option V :=
  match slot with
  | some another => (RegRes.alreadyRegistered another, slot)
  | none => (RegRes.ok, some inj)

/-- `Injector.cls_unregister` (lines 96-104): with a specific (truthy)
injector argument, a no-op unless that exact injector occupies the slot;
otherwise clear the slot. -/
def cls_unregister (slot : Option V) (inj : Option V) : Option V :=
  match inj with
  | some j => if slot ≠ some j then slot else none
  | none => none

/-- `Injector.cls_is_registered` (lines 106-112). -/
def cls_is_registered (slot : Option V) (inj : Option V) : Bool :=
  match inj with
  | some j => slot = some j
  | none => slot.isSome

/-- Process-wide state: the class-level registration slot together with an
injector instance's state. -/
structure ProcState where
  slot : Option V
  inj : Injector

/-- `Injector.clear` at the process level: the source statements of `clear`
and `_init` assign only the instance attributes `_app_scope`, `_scopes`
and `_scopes_stack` (and read `autobind`), and never mention the class
attribute `Injector.injector`, so the slot component is untouched. -/
def ProcState.clearInj (p : ProcState) : ProcState :=
  { p with inj := p.inj.clear }

/-- Constructing a new `Injector` instance at the process level:
`__init__` and `_init` assign only attributes of the fresh object and
never mention the class attribute `Injector.injector`. -/
def ProcState.newInjector (p : ProcState) (autobind : Bool) (selfVal : V) :
    ProcState × Injector :=
  (p, Injector.new autobind selfVal)

end Inject

namespace Inject

theorem findA_cons_self {β : Type} (k : Nat) (v : β) (t : List (Nat × β)) :
    findA k ((k, v) :: t) = some v := by
  simp [findA]

theorem findA_cons_ne {β : Type} {k k' : Nat} (v : β) (t : List (Nat × β))
    (h : k' ≠ k) : findA k ((k', v) :: t) = findA k t := by
  simp [findA, h]

theorem findA_eraseA_ne {β : Type} {j k : Nat} (h : j ≠ k) :
    ∀ l : List (Nat × β), findA k (eraseA j l) = findA k l := by
  intro l
  induction l with
  | nil => rfl
  | cons p t ih =>
    obtain ⟨k', v⟩ := p
    by_cases hk : k' = j
    · subst hk
      simp [eraseA, findA, h, ih]
    · by_cases hk2 : k' = k
      · subst hk2
        simp [eraseA, findA, hk, ih]
      · simp [eraseA, findA, hk, hk2, ih]

theorem findA_eraseA_self {β : Type} (k : Nat) :
    ∀ l : List (Nat × β), findA k (eraseA k l) = none := by
  intro l
  induction l with
  | nil => rfl
  | cons p t ih =>
    obtain ⟨k', v⟩ := p
    by_cases hk : k' = k
    · simp [eraseA, hk, ih]
    · simp [eraseA, findA, hk, ih]

theorem findA_setA_self {β : Type} (k : Nat) (v : β) (l : List (Nat × β)) :
    findA k (setA k v l) = some v := by
  simp [setA, findA]

theorem findA_setA_ne {β : Type} {j k : Nat} (v : β) (l : List (Nat × β))
    (h : j ≠ k) : findA k (setA j v l) = findA k l := by
  simp [setA, findA, h, findA_eraseA_ne h]

theorem firstWith_eq_none {p : Nat → Bool} :
    ∀ {l : List Nat}, (∀ x ∈ l, p x = false) → firstWith p l = none := by
  intro l
  induction l with
  | nil => intro _; rfl
  | cons x t ih =>
    intro h
    have hx := h x (by simp)
    simp [firstWith, hx]
    exact ih (fun y hy => h y (by simp [hy]))

theorem firstWith_eq_some {p : Nat → Bool} {a : Nat} :
    ∀ {l : List Nat}, a ∈ l → (∀ x ∈ l, (p x = true ↔ x = a)) →
      firstWith p l = some a := by
  intro l
  induction l with
  | nil => intro h; cases h
  | cons x t ih =>
    intro hmem hiff
    by_cases hx : p x = true
    · have hxa : x = a := (hiff x (by simp)).1 hx
      subst hxa
      simp [firstWith, hx]
    · have hxne : x ≠ a := by
        intro he
        exact hx ((hiff x (by simp)).2 he)
      have hmem' : a ∈ t := by
        rcases List.mem_cons.1 hmem with h | h
        · exact absurd h.symm hxne
        · exact h
      simp [firstWith, hx]
      exact ih hmem' (fun y hy => hiff y (by simp [hy]))

namespace Injector

theorem heapGet_setScope_self (i : Injector) (sid : Nat) (s : Scope) :
    (i.setScope sid s).heapGet sid = s := by
  simp [setScope, heapGet, findA_setA_self]

theorem heapGet_setScope_ne (i : Injector) {sid t : Nat} (s : Scope)
    (h : sid ≠ t) : (i.setScope t s).heapGet sid = i.heapGet sid := by
  simp [setScope, heapGet, findA_setA_ne _ _ (fun he => h he.symm)]

theorem setScope_stack (i : Injector) (sid : Nat) (s : Scope) :
    (i.setScope sid s).scopes_stack = i.scopes_stack := rfl

theorem setScope_app (i : Injector) (sid : Nat) (s : Scope) :
    (i.setScope sid s).app_scope = i.app_scope := rfl

theorem setScope_scopes (i : Injector) (sid : Nat) (s : Scope) :
    (i.setScope sid s).scopes = i.scopes := rfl

theorem unbind_stack (i : Injector) (t : K) :
    (i.unbind t).scopes_stack = i.scopes_stack := by
  unfold unbind
  split <;> rfl

theorem unbind_app (i : Injector) (t : K) :
    (i.unbind t).app_scope = i.app_scope := by
  unfold unbind
  split <;> rfl

theorem unbind_scopes (i : Injector) (t : K) :
    (i.unbind t).scopes = i.scopes := by
  unfold unbind
  split <;> rfl

theorem bind_stack (i : Injector) (t : K) (v : V) :
    (i.bind t v).scopes_stack = i.scopes_stack := by
  unfold bind
  split <;> simp [setScope_stack, unbind_stack]

theorem bind_app (i : Injector) (t : K) (v : V) :
    (i.bind t v).app_scope = i.app_scope := by
  unfold bind
  split <;> simp [setScope_app, unbind_app]

theorem bind_scopes (i : Injector) (t : K) (v : V) :
    (i.bind t v).scopes = i.scopes := by
  unfold bind
  split <;> simp [setScope_scopes, unbind_scopes]

theorem heapGet_unbind_findA_ne (i : Injector) {u t : K} (sid : Nat)
    (h : u ≠ t) :
    findA t (((i.unbind u).heapGet sid).bindings) =
      findA t ((i.heapGet sid).bindings) := by
  unfold unbind
  split
  · rename_i sid' _
    by_cases hs : sid = sid'
    · subst hs
      simp [heapGet_setScope_self, Scope.unbind, findA_eraseA_ne h]
    · simp [heapGet_setScope_ne _ _ hs]
  · rfl

theorem heapGet_unbind_factories (i : Injector) (u : K) (sid : Nat) :
    ((i.unbind u).heapGet sid).factories = (i.heapGet sid).factories := by
  unfold unbind
  split
  · rename_i sid' _
    by_cases hs : sid = sid'
    · subst hs
      simp [heapGet_setScope_self, Scope.unbind]
    · simp [heapGet_setScope_ne _ _ hs]
  · rfl

theorem heapGet_bind_findA_self (i : Injector) (t : K) (v : V) :
    findA t (((i.bind t v).heapGet i.app_scope).bindings) = some v := by
  unfold bind
  split
  · rename_i hb
    rw [show i.app_scope = (i.unbind t).app_scope from (unbind_app i t).symm]
    simp [heapGet_setScope_self, Scope.bind, findA_setA_self]
  · simp [heapGet_setScope_self, Scope.bind, findA_setA_self]

theorem heapGet_bind_findA_ne (i : Injector) {u t : K} (w : V) (sid : Nat)
    (h : u ≠ t) :
    findA t (((i.bind u w).heapGet sid).bindings) =
      findA t ((i.heapGet sid).bindings) := by
  unfold bind
  split
  · rename_i hb
    by_cases hs : sid = (i.unbind u).app_scope
    · subst hs
      simp [heapGet_setScope_self, Scope.bind, findA_setA_ne _ _ h,
        heapGet_unbind_findA_ne i _ h]
    · simp [heapGet_setScope_ne _ _ hs, heapGet_unbind_findA_ne i _ h]
  · by_cases hs : sid = i.app_scope
    · subst hs
      simp [heapGet_setScope_self, Scope.bind, findA_setA_ne _ _ h]
    · simp [heapGet_setScope_ne _ _ hs]

theorem is_bound_false (i : Injector) (t : K)
    (h : ∀ sid ∈ i.scopes_stack, (i.heapGet sid).is_bound t = false) :
    i.is_bound t = false := by
  simp only [is_bound, List.any_eq_false]
  intro sid hsid
  simp [h sid hsid]

end Injector

end Inject

namespace Inject

namespace Injector

theorem get_app_head (i : Injector) (env : TypeEnv) (t : K) (nf : Bool) {w : V}
    (hhead : i.scopes_stack.head? = some i.app_scope)
    (hfind : findA t ((i.heapGet i.app_scope).bindings) = some w) :
    (i.get env t nf).1 = GetRes.ok (some w) := by
  obtain ⟨rest, hstack⟩ : ∃ rest, i.scopes_stack = i.app_scope :: rest := by
    cases hs : i.scopes_stack with
    | nil => rw [hs] at hhead; cases hhead
    | cons x r =>
      rw [hs] at hhead
      simp only [List.head?_cons, Option.some.injEq] at hhead
      exact ⟨r, by rw [hhead]⟩
  have hb : (i.heapGet i.app_scope).is_bound t = true := by
    simp [Scope.is_bound, hfind]
  unfold get
  rw [hstack]
  simp [firstWith, hb, Scope.get, hfind]

theorem get_miss_firstWith (i : Injector) (t : K)
    (hmiss : ∀ sid ∈ i.scopes_stack,
      (i.heapGet sid).is_bound t = false ∧
      (i.heapGet sid).is_factory_bound t = false) :
    firstWith
      (fun sid => (i.heapGet sid).is_bound t || (i.heapGet sid).is_factory_bound t)
      i.scopes_stack = none :=
  firstWith_eq_none (fun x hx => by simp [(hmiss x hx).1, (hmiss x hx).2])

end Injector

open Injector

/-- C1: for every type key T and instance x, after `bind(T, to=x)` a
subsequent `get(T)` returns the identical object x; the binding persists
under a later `bind` of a different key U; and binding T a second time
silently replaces the first binding, so after `bind(T,to=a); bind(T,to=b)`,
`get(T)` returns b.  The hypothesis states the standing configuration that
the application scope is the first scope of the stack (true of every
freshly initialized injector). -/
theorem bind_get_returns_identical (i : Injector) (env : TypeEnv) (T U : K)
    (x y a b : V) (n1 n2 n3 : Bool)
    (hhead : i.scopes_stack.head? = some i.app_scope) (hUT : U ≠ T) :
    ((i.bind T x).get env T n1).1 = GetRes.ok (some x) ∧
    (((i.bind T x).bind U y).get env T n2).1 = GetRes.ok (some x) ∧
    (((i.bind T a).bind T b).get env T n3).1 = GetRes.ok (some b) := by
  refine ⟨?_, ?_, ?_⟩
  · apply get_app_head _ env T n1
    · rw [bind_stack, bind_app]; exact hhead
    · rw [bind_app]
      exact heapGet_bind_findA_self i T x
  · apply get_app_head _ env T n2
    · rw [bind_stack, bind_app, bind_stack, bind_app]; exact hhead
    · rw [bind_app, bind_app,
        heapGet_bind_findA_ne (i.bind T x) y i.app_scope hUT]
      exact heapGet_bind_findA_self i T x
  · apply get_app_head _ env T n3
    · rw [bind_stack, bind_app, bind_stack, bind_app]; exact hhead
    · rw [bind_app]
      exact heapGet_bind_findA_self (i.bind T a) T b

/-- Witness for C1 on a freshly created injector. -/
theorem bind_get_returns_identical_witness :
    ((Injector.new true 99).scopes_stack.head? =
        some (Injector.new true 99).app_scope ∧ (8 : K) ≠ 7) ∧
    (((Injector.new true 99).bind 7 10).get
        ⟨fun _ => true, fun _ => Except.ok 55⟩ 7 false).1 = GetRes.ok (some 10) ∧
    ((((Injector.new true 99).bind 7 10).bind 8 20).get
        ⟨fun _ => true, fun _ => Except.ok 55⟩ 7 false).1 = GetRes.ok (some 10) ∧
    ((((Injector.new true 99).bind 7 10).bind 7 11).get
        ⟨fun _ => true, fun _ => Except.ok 55⟩ 7 false).1 = GetRes.ok (some 11) :=
  ⟨⟨by decide, by decide⟩,
    bind_get_returns_identical (Injector.new true 99)
      ⟨fun _ => true, fun _ => Except.ok 55⟩ 7 8 10 20 10 11 false false false
      (by decide) (by decide)⟩

/-- C3: if no scope holds a concrete or factory binding for T and
autobinding is disabled or T is not callable, then `get(T, none=True)`
returns `None` with the state unchanged and `get(T, none=False)` raises
`NotBoundError(T)` with the state unchanged. -/
theorem get_miss_not_bound (i : Injector) (env : TypeEnv) (T : K)
    (hmiss : ∀ sid ∈ i.scopes_stack,
      (i.heapGet sid).is_bound T = false ∧
      (i.heapGet sid).is_factory_bound T = false)
    (hna : i.autobind = false ∨ env.callable T = false) :
    i.get env T true = (GetRes.ok none, i) ∧
    i.get env T false = (GetRes.notBound T, i) := by
  have hfw := get_miss_firstWith i T hmiss
  have hcond : (i.autobind && env.callable T) = false := by
    rcases hna with h | h <;> simp [h]
  constructor
  · unfold Injector.get
    rw [hfw]
    simp [hcond]
  · unfold Injector.get
    rw [hfw]
    simp [hcond]

/-- Witness for C3 on a freshly created injector with autobinding disabled. -/
theorem get_miss_not_bound_witness :
    ((∀ sid ∈ (Injector.new false 99).scopes_stack,
      ((Injector.new false 99).heapGet sid).is_bound 7 = false ∧
      ((Injector.new false 99).heapGet sid).is_factory_bound 7 = false) ∧
      (Injector.new false 99).autobind = false) ∧
    (Injector.new false 99).get ⟨fun _ => true, fun _ => Except.ok 55⟩ 7 true =
      (GetRes.ok none, Injector.new false 99) ∧
    (Injector.new false 99).get ⟨fun _ => true, fun _ => Except.ok 55⟩ 7 false =
      (GetRes.notBound 7, Injector.new false 99) :=
  ⟨⟨by decide, by decide⟩,
    get_miss_not_bound (Injector.new false 99)
      ⟨fun _ => true, fun _ => Except.ok 55⟩ 7 (by decide) (Or.inl (by decide))⟩

/-- C4: when autobinding is attempted for an unbound key and construction
throws e, `get` raises `AutobindingFailed(T, e)` wrapping the failure, the
injector state is left completely unchanged, and `is_bound(T)` remains
false. -/
theorem autobind_failure_no_binding (i : Injector) (env : TypeEnv) (T : K)
    (e : V) (nf : Bool)
    (hmiss : ∀ sid ∈ i.scopes_stack,
      (i.heapGet sid).is_bound T = false ∧
      (i.heapGet sid).is_factory_bound T = false)
    (hauto : i.autobind = true) (hcall : env.callable T = true)
    (hcons : env.construct T = Except.error e) :
    i.get env T nf = (GetRes.autobindingFailed T e, i) ∧
    i.is_bound T = false := by
  have hfw := get_miss_firstWith i T hmiss
  refine ⟨?_, is_bound_false i T (fun s hs => (hmiss s hs).1)⟩
  unfold Injector.get
  rw [hfw]
  simp [hauto, hcall, hcons]

/-- Witness for C4 with a constructor that raises exception 77. -/
theorem autobind_failure_no_binding_witness :
    ((∀ sid ∈ (Injector.new true 99).scopes_stack,
      ((Injector.new true 99).heapGet sid).is_bound 7 = false ∧
      ((Injector.new true 99).heapGet sid).is_factory_bound 7 = false) ∧
      (Injector.new true 99).autobind = true) ∧
    (Injector.new true 99).get ⟨fun _ => true, fun _ => Except.error 77⟩ 7 false =
      (GetRes.autobindingFailed 7 77, Injector.new true 99) ∧
    (Injector.new true 99).is_bound 7 = false :=
  ⟨⟨by decide, by decide⟩,
    autobind_failure_no_binding (Injector.new true 99)
      ⟨fun _ => true, fun _ => Except.error 77⟩ 7 77 false
      (by decide) (by decide) (by decide) rfl⟩

end Inject

namespace Inject

open Injector

/-- C5: for a zero-argument-constructible key T with no binding or factory
binding in any scope and autobinding enabled, the first `get(T)` constructs
the instance, binds it into the application scope and returns it, and a
second consecutive `get(T)` returns the identical instance from the
memoized application-scope binding. -/
theorem autobind_memoized_singleton (i : Injector) (env : TypeEnv) (T : K)
    (inst : V) (n1 n2 : Bool)
    (hmiss : ∀ sid ∈ i.scopes_stack,
      (i.heapGet sid).is_bound T = false ∧
      (i.heapGet sid).is_factory_bound T = false)
    (hauto : i.autobind = true) (hcall : env.callable T = true)
    (hcons : env.construct T = Except.ok inst)
    (happ : i.app_scope ∈ i.scopes_stack) :
    i.get env T n1 = (GetRes.ok (some inst), i.bind T inst) ∧
    findA T (((i.bind T inst).heapGet i.app_scope).bindings) = some inst ∧
    ((i.bind T inst).get env T n2).1 = GetRes.ok (some inst) := by
  have hfw := get_miss_firstWith i T hmiss
  have hb : i.is_bound T = false := is_bound_false i T (fun s hs => (hmiss s hs).1)
  have hbind : i.bind T inst =
      i.setScope i.app_scope ((i.heapGet i.app_scope).bind T inst) := by
    unfold Injector.bind
    rw [hb]
    simp
  have hfind : findA T (((i.bind T inst).heapGet i.app_scope).bindings) = some inst := by
    rw [hbind, heapGet_setScope_self]
    exact findA_setA_self T inst _
  refine ⟨?_, hfind, ?_⟩
  · unfold Injector.get
    rw [hfw]
    simp [hauto, hcall, hcons]
  · have hstack : (i.bind T inst).scopes_stack = i.scopes_stack := bind_stack i T inst
    have hfw2 : firstWith
        (fun sid => ((i.bind T inst).heapGet sid).is_bound T ||
          ((i.bind T inst).heapGet sid).is_factory_bound T)
        (i.bind T inst).scopes_stack = some i.app_scope := by
      rw [hstack]
      apply firstWith_eq_some happ
      intro x hx
      by_cases hxa : x = i.app_scope
      · subst hxa
        simp [Scope.is_bound, hfind]
      · rw [hbind, heapGet_setScope_ne _ _ hxa]
        simp [(hmiss x hx).1, (hmiss x hx).2, hxa]
    unfold Injector.get
    rw [hfw2]
    simp [Scope.get, hfind]

/-- Witness for C5: two consecutive resolutions of the unbound key 7 with a
constructor producing instance 55. -/
theorem autobind_memoized_singleton_witness :
    ((∀ sid ∈ (Injector.new true 99).scopes_stack,
      ((Injector.new true 99).heapGet sid).is_bound 7 = false ∧
      ((Injector.new true 99).heapGet sid).is_factory_bound 7 = false) ∧
      (Injector.new true 99).autobind = true ∧
      (Injector.new true 99).app_scope ∈ (Injector.new true 99).scopes_stack) ∧
    (Injector.new true 99).get ⟨fun _ => true, fun _ => Except.ok 55⟩ 7 false =
      (GetRes.ok (some 55), (Injector.new true 99).bind 7 55) ∧
    findA 7 ((((Injector.new true 99).bind 7 55).heapGet
      (Injector.new true 99).app_scope).bindings) = some 55 ∧
    (((Injector.new true 99).bind 7 55).get
      ⟨fun _ => true, fun _ => Except.ok 55⟩ 7 false).1 = GetRes.ok (some 55) :=
  ⟨⟨by decide, by decide, by decide⟩,
    autobind_memoized_singleton (Injector.new true 99)
      ⟨fun _ => true, fun _ => Except.ok 55⟩ 7 55 false false
      (by decide) (by decide) (by decide) rfl (by decide)⟩

/-- C9: for an unbound key with autobinding enabled, a callable key and a
failing constructor, `get(T, none=True)` still raises
`AutobindingFailed(T, e)` rather than returning `None`: the `none` flag
suppresses only `NotBoundError`. -/
theorem none_flag_does_not_suppress_autobind_failure (i : Injector)
    (env : TypeEnv) (T : K) (e : V)
    (hmiss : ∀ sid ∈ i.scopes_stack,
      (i.heapGet sid).is_bound T = false ∧
      (i.heapGet sid).is_factory_bound T = false)
    (hauto : i.autobind = true) (hcall : env.callable T = true)
    (hcons : env.construct T = Except.error e) :
    (i.get env T true).1 = GetRes.autobindingFailed T e := by
  have hfw := get_miss_firstWith i T hmiss
  unfold Injector.get
  rw [hfw]
  simp [hauto, hcall, hcons]

/-- Witness for C9 with a constructor raising exception 77 and the
miss-is-ok flag set. -/
theorem none_flag_does_not_suppress_autobind_failure_witness :
    ((∀ sid ∈ (Injector.new true 99).scopes_stack,
      ((Injector.new true 99).heapGet sid).is_bound 7 = false ∧
      ((Injector.new true 99).heapGet sid).is_factory_bound 7 = false) ∧
      (Injector.new true 99).autobind = true) ∧
    ((Injector.new true 99).get
      ⟨fun _ => true, fun _ => Except.error 77⟩ 7 true).1 =
      GetRes.autobindingFailed 7 77 :=
  ⟨⟨by decide, by decide⟩,
    none_flag_does_not_suppress_autobind_failure (Injector.new true 99)
      ⟨fun _ => true, fun _ => Except.error 77⟩ 7 77
      (by decide) (by decide) (by decide) rfl⟩

end Inject

namespace Inject

theorem eraseA_eraseA {β : Type} (k : Nat) :
    ∀ l : List (Nat × β), eraseA k (eraseA k l) = eraseA k l := by
  intro l
  induction l with
  | nil => rfl
  | cons p t ih =>
    obtain ⟨k', v⟩ := p
    by_cases hk : k' = k
    · simp [eraseA, hk, ih]
    · simp [eraseA, hk, ih]

namespace Injector

/-- Contents of the application scope right after (re)initialization:
self-bindings of the three scopes and of the injector itself. -/
def initAppScope (n : Nat) (v : V) : Scope :=
  Scope.mk [(2, n + 2), (1, n + 1), (3, v), (0, n)] []

theorem init'_eq (i : Injector) :
    i.init' =
      Injector.mk i.autobind i.selfVal
        ((i.nextId, initAppScope i.nextId i.selfVal)
          :: (i.nextId + 2, Scope.empty) :: (i.nextId + 1, Scope.empty)
          :: eraseA i.nextId i.heap)
        (i.nextId + 3)
        [(2, i.nextId + 2), (1, i.nextId + 1), (0, i.nextId)]
        [i.nextId, i.nextId + 1, i.nextId + 2]
        i.nextId := by
  obtain ⟨A, S, H, n, sc, st, ap⟩ := i
  dsimp only
  have h1 : ¬ (n + 1 = n) := by omega
  have h2 : ¬ (n + 1 + 1 = n) := by omega
  have h3 : ¬ (n + 1 + 1 = n + 1) := by omega
  have s0 : (Injector.mk A S H n sc st ap).init' =
      ((Injector.mk A S ((n, Scope.empty) :: H) (n + 1) [] [] n).bind_scope
        ApplicationScope n).default_config := rfl
  have s1 : (Injector.mk A S ((n, Scope.empty) :: H) (n + 1) [] [] n).bind_scope
      ApplicationScope n =
      Injector.mk A S ((n, Scope.mk [(0, n)] []) :: eraseA n H) (n + 1)
        [(0, n)] [n] n := by
    simp [bind_scope, unbind_scope, Injector.bind, Injector.unbind, is_bound,
      setScope, heapGet, setA, findA, eraseA, Scope.bind, Scope.empty, firstWith,
      ApplicationScope]
  set L1 : Injector :=
    Injector.mk A S ((n, Scope.mk [(0, n)] []) :: eraseA n H) (n + 1) [(0, n)] [n] n
    with hL1
  have s2 : L1.bind InjectorKey S =
      Injector.mk A S ((n, Scope.mk [(3, S), (0, n)] []) :: eraseA n H) (n + 1)
        [(0, n)] [n] n := by
    simp [hL1, Injector.bind, Injector.unbind, is_bound, setScope, heapGet, setA,
      findA, eraseA, Scope.bind, Scope.is_bound, firstWith, eraseA_eraseA,
      InjectorKey, List.any]
  set L2 : Injector :=
    Injector.mk A S ((n, Scope.mk [(3, S), (0, n)] []) :: eraseA n H) (n + 1)
      [(0, n)] [n] n with hL2
  have s3 : L1.default_config =
      ((((L1.bind InjectorKey S).allocScope Scope.empty).2.bind_scope ThreadScope
          ((L1.bind InjectorKey S).allocScope Scope.empty).1).allocScope
        Scope.empty).2.bind_scope RequestScope
        ((((L1.bind InjectorKey S).allocScope Scope.empty).2.bind_scope ThreadScope
          ((L1.bind InjectorKey S).allocScope Scope.empty).1).allocScope
        Scope.empty).1 := rfl
  have s4 : (L2.allocScope Scope.empty).2 =
      Injector.mk A S ((n + 1, Scope.empty) :: (n, Scope.mk [(3, S), (0, n)] [])
        :: eraseA n H) (n + 1 + 1) [(0, n)] [n] n := rfl
  have s4a : (L2.allocScope Scope.empty).1 = n + 1 := rfl
  have s5 : (Injector.mk A S ((n + 1, Scope.empty) :: (n, Scope.mk [(3, S), (0, n)] [])
        :: eraseA n H) (n + 1 + 1) [(0, n)] [n] n).bind_scope ThreadScope (n + 1) =
      Injector.mk A S ((n, Scope.mk [(1, n + 1), (3, S), (0, n)] [])
        :: (n + 1, Scope.empty) :: eraseA n H) (n + 1 + 1)
        [(1, n + 1), (0, n)] [n, n + 1] n := by
    simp [bind_scope, unbind_scope, Injector.bind, Injector.unbind, is_bound,
      setScope, heapGet, setA, findA, eraseA, Scope.bind, Scope.is_bound,
      Scope.empty, firstWith, eraseA_eraseA, ThreadScope, h1, List.any]
  set L3 : Injector :=
    Injector.mk A S ((n, Scope.mk [(1, n + 1), (3, S), (0, n)] [])
      :: (n + 1, Scope.empty) :: eraseA n H) (n + 1 + 1)
      [(1, n + 1), (0, n)] [n, n + 1] n with hL3
  have s6 : (L3.allocScope Scope.empty).2 =
      Injector.mk A S ((n + 1 + 1, Scope.empty)
        :: (n, Scope.mk [(1, n + 1), (3, S), (0, n)] [])
        :: (n + 1, Scope.empty) :: eraseA n H) (n + 1 + 1 + 1)
        [(1, n + 1), (0, n)] [n, n + 1] n := rfl
  have s6a : (L3.allocScope Scope.empty).1 = n + 1 + 1 := rfl
  have s7 : (Injector.mk A S ((n + 1 + 1, Scope.empty)
        :: (n, Scope.mk [(1, n + 1), (3, S), (0, n)] [])
        :: (n + 1, Scope.empty) :: eraseA n H) (n + 1 + 1 + 1)
        [(1, n + 1), (0, n)] [n, n + 1] n).bind_scope RequestScope (n + 1 + 1) =
      Injector.mk A S ((n, Scope.mk [(2, n + 1 + 1), (1, n + 1), (3, S), (0, n)] [])
        :: (n + 1 + 1, Scope.empty) :: (n + 1, Scope.empty) :: eraseA n H)
        (n + 1 + 1 + 1) [(2, n + 1 + 1), (1, n + 1), (0, n)] [n, n + 1, n + 1 + 1]
        n := by
    simp [bind_scope, unbind_scope, Injector.bind, Injector.unbind, is_bound,
      setScope, heapGet, setA, findA, eraseA, Scope.bind, Scope.is_bound,
      Scope.empty, firstWith, eraseA_eraseA, RequestScope, h1, h2, h3, List.any]
  rw [s0, s1, s3, s2, s4, s4a, s5, s6, s6a, s7]
  rfl


theorem new_eq (ab : Bool) (v : V) :
    Injector.new ab v =
      { autobind := ab, selfVal := v,
        heap := [(0, ⟨[(2, 2), (1, 1), (3, v), (0, 0)], []⟩),
                 (2, Scope.empty), (1, Scope.empty)],
        nextId := 3,
        scopes := [(2, 2), (1, 1), (0, 0)],
        scopes_stack := [0, 1, 2],
        app_scope := 0 } := by
  rw [show Injector.new ab v = (Injector.mk ab v [] 0 [] [] 0).init' from rfl, init'_eq]
  rfl

theorem bindInScope_stack (i : Injector) (st t : K) (v : V) :
    (i.bindInScope st t v).scopes_stack = i.scopes_stack := by
  unfold bindInScope
  split <;> rfl

theorem bindInScope_app (i : Injector) (st t : K) (v : V) :
    (i.bindInScope st t v).app_scope = i.app_scope := by
  unfold bindInScope
  split <;> rfl

end Injector

open Injector

/-- C2: `get` walks the scope stack in its fixed order and delegates to
the first scope holding a concrete or factory binding; in particular,
with T bound to a in the application scope and to b in the thread scope
of a default-configured injector, `get(T)` returns a, regardless of the
order in which the two bindings were made. -/
theorem scope_stack_precedence (env : TypeEnv) (ab n1 n2 : Bool) (v : V)
    (T : K) (a b : V) :
    ((((Injector.new ab v).bind T a).bindInScope ThreadScope T b).get
        env T n1).1 = GetRes.ok (some a) ∧
    ((((Injector.new ab v).bindInScope ThreadScope T b).bind T a).get
        env T n2).1 = GetRes.ok (some a) := by
  constructor
  · have h1 : ((Injector.new ab v).bind T a).bindInScope ThreadScope T b =
        ((Injector.new ab v).bind T a).setScope 1
          ((((Injector.new ab v).bind T a).heapGet 1).bind T b) := by
      unfold Injector.bindInScope
      rw [bind_scopes, new_eq]
      simp [findA, ThreadScope]
    apply get_app_head _ env T n1
    · rw [h1, setScope_stack, setScope_app, bind_stack, bind_app, new_eq]
      rfl
    · rw [h1, setScope_app, bind_app]
      rw [show (Injector.new ab v).app_scope = 0 from by rw [new_eq]]
      rw [heapGet_setScope_ne _ _ (by decide : (0 : Nat) ≠ 1)]
      have := heapGet_bind_findA_self (Injector.new ab v) T a
      rw [show (Injector.new ab v).app_scope = 0 from by rw [new_eq]] at this
      exact this
  · apply get_app_head _ env T n2
    · rw [bind_stack, bind_app, bindInScope_stack, bindInScope_app, new_eq]
      rfl
    · rw [bind_app]
      exact heapGet_bind_findA_self ((Injector.new ab v).bindInScope ThreadScope T b) T a

end Inject

namespace Inject

open Injector

/-- C6: the process-wide registration two-state machine.  `cls_register`
fails with `InjectorAlreadyRegistered` carrying the currently registered
instance and leaves it registered whenever any injector is registered, and
otherwise registers the caller; `cls_unregister` with a specific injector
while a different one is registered is a no-op, and otherwise clears the
slot.  At most one injector is registered at any instant because the slot
holds at most one identity by construction. -/
theorem registration_state_machine :
    (∀ a j : V, cls_register (some a) j = (RegRes.alreadyRegistered a, some a)) ∧
    (∀ j : V, cls_register none j = (RegRes.ok, some j)) ∧
    (∀ a j : V, a ≠ j → cls_unregister (some a) (some j) = some a) ∧
    (∀ j : V, cls_unregister (some j) (some j) = none) ∧
    (∀ j : V, cls_unregister none (some j) = none) ∧
    (∀ s : Option V, cls_unregister s none = none) := by
  refine ⟨fun a j => rfl, fun j => rfl, ?_, ?_, ?_, fun s => rfl⟩
  · intro a j h
    simp [cls_unregister, h]
  · intro j
    simp [cls_unregister]
  · intro j
    simp [cls_unregister]

/-- Witness for C6: unregistering injector 5 while injector 3 is registered
is a no-op. -/
theorem registration_state_machine_witness :
    (3 : V) ≠ 5 ∧ cls_unregister (some 3) (some 5) = some 3 :=
  ⟨by decide, registration_state_machine.2.2.1 3 5 (by decide)⟩

/-- C7: after `clear()` every user type key (outside the four keys the
default configuration re-binds: the three scope self-bindings and the
injector self-binding) is unbound, the injector is reinitialized to the
default configuration with `is_scope_bound` true again for
`ApplicationScope`, `ThreadScope` and `RequestScope`, and the injector is
re-bound to itself under the `Injector` key, so `get(Injector)` returns
the injector object itself. -/
theorem clear_reinitializes (i : Injector) (env : TypeEnv) (nf : Bool) :
    (∀ T : K, 4 ≤ T → (i.clear).is_bound T = false) ∧
    (i.clear).is_scope_bound ApplicationScope = true ∧
    (i.clear).is_scope_bound ThreadScope = true ∧
    (i.clear).is_scope_bound RequestScope = true ∧
    ((i.clear).get env InjectorKey nf).1 = GetRes.ok (some i.selfVal) := by
  have hc : i.clear = i.init' := rfl
  rw [hc, init'_eq]
  have hn1 : ¬ (i.nextId = i.nextId + 1) := by omega
  have hn2 : ¬ (i.nextId = i.nextId + 2) := by omega
  have hn3 : ¬ (i.nextId + 2 = i.nextId + 1) := by omega
  refine ⟨?_, ?_, ?_, ?_, ?_⟩
  · intro T hT
    have k0 : ¬ ((0 : Nat) = T) := by
      intro h; rw [← h] at hT; exact absurd hT (by decide)
    have k1 : ¬ ((1 : Nat) = T) := by
      intro h; rw [← h] at hT; exact absurd hT (by decide)
    have k2 : ¬ ((2 : Nat) = T) := by
      intro h; rw [← h] at hT; exact absurd hT (by decide)
    have k3 : ¬ ((3 : Nat) = T) := by
      intro h; rw [← h] at hT; exact absurd hT (by decide)
    simp [Injector.is_bound, heapGet, Scope.is_bound, findA, initAppScope,
      Scope.empty, hn1, hn2, hn3, k0, k1, k2, k3]
  · simp [is_scope_bound, findA, ApplicationScope]
  · simp [is_scope_bound, findA, ThreadScope]
  · simp [is_scope_bound, findA, RequestScope]
  · simp [Injector.get, firstWith, heapGet, Scope.is_bound, Scope.is_factory_bound,
      Scope.get, findA, initAppScope, InjectorKey]

/-- Witness for C7: clearing an injector holding a user binding for key 7. -/
theorem clear_reinitializes_witness :
    ((4 : K) ≤ 7 ∧
      ((((Injector.new true 9).bind 7 5).clear).is_bound 7 = false)) ∧
    ((((Injector.new true 9).bind 7 5).clear).is_scope_bound ApplicationScope = true) ∧
    ((((((Injector.new true 9).bind 7 5).clear)).get
      ⟨fun _ => true, fun _ => Except.ok 0⟩ InjectorKey false).1 =
      GetRes.ok (some ((Injector.new true 9).bind 7 5).selfVal)) :=
  ⟨⟨by decide,
      (clear_reinitializes ((Injector.new true 9).bind 7 5)
        ⟨fun _ => true, fun _ => Except.ok 0⟩ false).1 7 (by decide)⟩,
    (clear_reinitializes ((Injector.new true 9).bind 7 5)
      ⟨fun _ => true, fun _ => Except.ok 0⟩ false).2.1,
    (clear_reinitializes ((Injector.new true 9).bind 7 5)
      ⟨fun _ => true, fun _ => Except.ok 0⟩ false).2.2.2.2⟩

/-- C10: `clear()` mutates only instance-level state: at the process level
the class slot `Injector.injector` is unchanged, the injector keeps its
identity, so an injector registered before `clear()` is still registered
after it, and constructing a new `Injector` instance never changes which
injector is registered. -/
theorem clear_leaves_registration_slot (p : ProcState) (ab : Bool) (v : V) :
    (p.clearInj).slot = p.slot ∧
    (p.clearInj).inj.selfVal = p.inj.selfVal ∧
    cls_is_registered (p.clearInj).slot (some p.inj.selfVal) =
      cls_is_registered p.slot (some p.inj.selfVal) ∧
    ((p.newInjector ab v).1).slot = p.slot := by
  obtain ⟨s, j⟩ := p
  refine ⟨rfl, ?_, rfl, rfl⟩
  show (j.clear).selfVal = j.selfVal
  rw [show j.clear = j.init' from rfl, init'_eq]

end Inject

namespace Inject

namespace Injector

theorem unbind_factory_scopes (i : Injector) (t : K) :
    (i.unbind_factory t).scopes = i.scopes := by
  unfold unbind_factory
  split <;> rfl

theorem unbind_factory_stack (i : Injector) (t : K) :
    (i.unbind_factory t).scopes_stack = i.scopes_stack := by
  unfold unbind_factory
  split <;> rfl

theorem unbind_factory_app (i : Injector) (t : K) :
    (i.unbind_factory t).app_scope = i.app_scope := by
  unfold unbind_factory
  split <;> rfl

theorem bind_factory_scopes (i : Injector) (t : K) (f : V) :
    (i.bind_factory t f).scopes = i.scopes := by
  unfold bind_factory
  split <;> simp [setScope_scopes, unbind_factory_scopes]

theorem bind_factory_stack (i : Injector) (t : K) (f : V) :
    (i.bind_factory t f).scopes_stack = i.scopes_stack := by
  unfold bind_factory
  split <;> simp [setScope_stack, unbind_factory_stack]

theorem bind_factory_app (i : Injector) (t : K) (f : V) :
    (i.bind_factory t f).app_scope = i.app_scope := by
  unfold bind_factory
  split <;> simp [setScope_app, unbind_factory_app]

theorem get_scopes (i : Injector) (env : TypeEnv) (t : K) (nf : Bool) :
    ((i.get env t nf).2).scopes = i.scopes := by
  unfold Injector.get
  split
  · rfl
  · split
    · split
      · rfl
      · exact bind_scopes _ _ _
    · split <;> rfl

theorem get_stack (i : Injector) (env : TypeEnv) (t : K) (nf : Bool) :
    ((i.get env t nf).2).scopes_stack = i.scopes_stack := by
  unfold Injector.get
  split
  · rfl
  · split
    · split
      · rfl
      · exact bind_stack _ _ _
    · split <;> rfl

theorem get_app (i : Injector) (env : TypeEnv) (t : K) (nf : Bool) :
    ((i.get env t nf).2).app_scope = i.app_scope := by
  unfold Injector.get
  split
  · rfl
  · split
    · split
      · rfl
      · exact bind_app _ _ _
    · split <;> rfl

theorem unbind_scope_findA_ne (i : Injector) {st k : K} (h : st ≠ k) :
    findA k ((i.unbind_scope st).scopes) = findA k i.scopes := by
  unfold unbind_scope
  split
  · rfl
  · simp [unbind_scopes, findA_eraseA_ne h]

end Injector

open Injector

/-- C8 counterexample: the claim that the application scope survives every
sequence of public operations is false on the code: a single public call
`unbind_scope(ApplicationScope)` on a freshly constructed injector removes
the application scope from both the scope table and the scope stack. -/
theorem unbind_scope_removes_application_scope :
    ((Injector.new true 0).unbind_scope ApplicationScope).is_scope_bound
        ApplicationScope = false ∧
    ¬ ((Injector.new true 0).app_scope ∈
        ((Injector.new true 0).unbind_scope ApplicationScope).scopes_stack) := by
  decide

/-- C8 amended: the application scope is present after construction and is
preserved by every public operation except `unbind_scope` applied to
`ApplicationScope` itself: `bind`, `unbind`, `bind_factory`,
`unbind_factory` and `get` do not touch the scope table, the scope stack
or the `_app_scope` reference at all; `bind_scope` of any scope type keeps
that type bound and preserves the application scope entry whenever the
type is not `ApplicationScope`; `unbind_scope` of a different scope type
preserves the application scope entry; and `clear` restores the default
configuration with the application scope present and on the stack. -/
theorem application_scope_present_except_unbind_scope :
    (∀ (ab : Bool) (v : V),
      (Injector.new ab v).is_scope_bound ApplicationScope = true ∧
      (Injector.new ab v).app_scope ∈ (Injector.new ab v).scopes_stack) ∧
    (∀ (i : Injector) (t : K) (x : V),
      (i.bind t x).scopes = i.scopes ∧
      (i.bind t x).scopes_stack = i.scopes_stack ∧
      (i.bind t x).app_scope = i.app_scope) ∧
    (∀ (i : Injector) (t : K),
      (i.unbind t).scopes = i.scopes ∧
      (i.unbind t).scopes_stack = i.scopes_stack ∧
      (i.unbind t).app_scope = i.app_scope) ∧
    (∀ (i : Injector) (t : K) (f : V),
      (i.bind_factory t f).scopes = i.scopes ∧
      (i.bind_factory t f).scopes_stack = i.scopes_stack ∧
      (i.bind_factory t f).app_scope = i.app_scope) ∧
    (∀ (i : Injector) (t : K),
      (i.unbind_factory t).scopes = i.scopes ∧
      (i.unbind_factory t).scopes_stack = i.scopes_stack ∧
      (i.unbind_factory t).app_scope = i.app_scope) ∧
    (∀ (i : Injector) (env : TypeEnv) (t : K) (nf : Bool),
      ((i.get env t nf).2).scopes = i.scopes ∧
      ((i.get env t nf).2).scopes_stack = i.scopes_stack ∧
      ((i.get env t nf).2).app_scope = i.app_scope) ∧
    (∀ (i : Injector) (st : K) (sid : Nat),
      (i.bind_scope st sid).is_scope_bound st = true) ∧
    (∀ (i : Injector) (st : K) (sid : Nat), st ≠ ApplicationScope →
      (i.bind_scope st sid).is_scope_bound ApplicationScope =
        i.is_scope_bound ApplicationScope) ∧
    (∀ (i : Injector) (st : K), st ≠ ApplicationScope →
      (i.unbind_scope st).is_scope_bound ApplicationScope =
        i.is_scope_bound ApplicationScope) ∧
    (∀ i : Injector,
      (i.clear).is_scope_bound ApplicationScope = true ∧
      (i.clear).app_scope ∈ (i.clear).scopes_stack) := by
  refine ⟨?_, ?_, ?_, ?_, ?_, ?_, ?_, ?_, ?_, ?_⟩
  · intro ab v
    constructor
    · rw [new_eq]
      simp [is_scope_bound, findA, ApplicationScope]
    · rw [new_eq]
      simp
  · exact fun i t x => ⟨bind_scopes i t x, bind_stack i t x, bind_app i t x⟩
  · exact fun i t => ⟨unbind_scopes i t, unbind_stack i t, unbind_app i t⟩
  · exact fun i t f =>
      ⟨bind_factory_scopes i t f, bind_factory_stack i t f, bind_factory_app i t f⟩
  · exact fun i t =>
      ⟨unbind_factory_scopes i t, unbind_factory_stack i t, unbind_factory_app i t⟩
  · exact fun i env t nf => ⟨get_scopes i env t nf, get_stack i env t nf, get_app i env t nf⟩
  · intro i st sid
    simp [bind_scope, is_scope_bound, findA_setA_self]
  · intro i st sid h
    simp [bind_scope, is_scope_bound, findA_setA_ne _ _ h, bind_scopes,
      unbind_scope_findA_ne i h]
  · intro i st h
    simp [is_scope_bound, unbind_scope_findA_ne i h]
  · intro i
    rw [show i.clear = i.init' from rfl, init'_eq]
    constructor
    · simp [is_scope_bound, findA, ApplicationScope]
    · simp

/-- Witness for the amended C8 on concrete scope types other than
`ApplicationScope`. -/
theorem application_scope_present_except_unbind_scope_witness :
    (ThreadScope ≠ ApplicationScope) ∧
    (((Injector.new true 0).bind_scope ThreadScope 50).is_scope_bound
        ApplicationScope = (Injector.new true 0).is_scope_bound ApplicationScope) ∧
    (((Injector.new true 0).unbind_scope ThreadScope).is_scope_bound
        ApplicationScope = (Injector.new true 0).is_scope_bound ApplicationScope) :=
  ⟨by decide,
    application_scope_present_except_unbind_scope.2.2.2.2.2.2.2.1
      (Injector.new true 0) ThreadScope 50 (by decide),
    application_scope_present_except_unbind_scope.2.2.2.2.2.2.2.2.1
      (Injector.new true 0) ThreadScope (by decide)⟩

end Inject
